import Mathlib

/-!
Verification of the drop-farming core (`src/core.py`) against its
natural-language specification.  The Python code is shallowly embedded:
pure fragments become Lean functions, the stateful retry loop becomes
explicit state passing with fuel, Python floats that only ever hold
exactly-representable values are modelled by rationals, and raised
exceptions become explicit constructors or `Option`.
-/

/-! ## Exponential backoff (`ExponentialBackoff`, core.py lines 30-38)

The Python class is an iterator: `__next__` increments `_exp` and returns
`min(self._base * 2 ** self._exp, self._max)`.  It never raises
`StopIteration`, which `next?` reflects by always returning `some`.
-/

structure ExponentialBackoff where
  base : ℚ
  exp : ℕ
  max : ℚ
deriving DecidableEq, Repr

/-- Constructor `ExponentialBackoff(base, maximum=...)`: `_exp` starts at 0. -/
def ExponentialBackoff.init (base : ℚ) (maximum : ℚ) : ExponentialBackoff :=
  { base := base, exp := 0, max := maximum }

/-- Method `__next__`: bump `_exp`, return `min(base * 2 ** exp, max)` together with
the successor state; `none` would correspond to `StopIteration`, which this
iterator never raises. -/
def ExponentialBackoff.next? (b : ExponentialBackoff) : Option (ℚ × ExponentialBackoff) :=
  some (min (b.base * 2 ^ (b.exp + 1)) b.max, { b with exp := b.exp + 1 })

/-- The first `n` delays yielded by the iterator, in order. -/
def backoffDelays (b : ExponentialBackoff) : ℕ → List ℚ
  | 0 => []
  | n + 1 =>
    match b.next? with
    | none => []
    | some (d, b') => d :: backoffDelays b' n

/-! ## The resilient request loop (`AccountWorker.request`, core.py lines 480-499)

One attempt of the `for delay in backoff:` body.  The HTTP outcome of the
attempt is an oracle value: either a response with a status code or a
network/timeout exception (`aiohttp.ClientError` / `asyncio.TimeoutError`).
-/

inductive AttemptResult where
  | response (status : ℕ)
  | netError
deriving DecidableEq, Repr

/-- Result of one iteration of the retry loop:
`yielded s` — the response was yielded to the caller and the loop returned;
`retry d b'` — the loop slept `d` seconds and continued with backoff state `b'`. -/
inductive StepResult where
  | yielded (status : ℕ)
  | retry (delay : ℚ) (next : ExponentialBackoff)
deriving DecidableEq, Repr

/-- One iteration of `for delay in backoff:`: draw the next delay (a `none`
draw would end the loop and reach `raise RequestException`), then run the
attempt: status `>= 500` sleeps `delay` and continues, a network/timeout
error sleeps `delay` and continues, any other status is yielded. -/
def requestStep (b : ExponentialBackoff) (a : AttemptResult) : Option StepResult :=
  match b.next? with
  | none => none
  | some (delay, b') =>
    match a with
    | .response s => if 500 ≤ s then some (.retry delay b') else some (.yielded s)
    | .netError => some (.retry delay b')

/-- Overall outcome of running the retry loop for at most `fuel` iterations. -/
inductive ReqOutcome where
  | yielded (status : ℕ)
  | raisedRequestException
  | stillRunning
deriving DecidableEq, Repr

/-- The whole retry loop of `AccountWorker.request`, driven by an oracle
`attempts` giving the transport outcome of the `i`-th attempt.
`raisedRequestException` is the `raise RequestException(...)` after the
`for` loop; `stillRunning` means the loop had not exited after `fuel`
iterations. -/
def requestLoop (attempts : ℕ → AttemptResult) :
    ExponentialBackoff → ℕ → ℕ → ReqOutcome
  | _, _, 0 => .stillRunning
  | b, i, fuel + 1 =>
    match requestStep b (attempts i) with
    | none => .raisedRequestException
    | some (.yielded s) => .yielded s
    | some (.retry _ b') => requestLoop attempts b' (i + 1) fuel

/-! ## Drops and campaigns (`TimedDrop`, `DropsCampaign`, core.py lines 91-158)

`TimedDrop.__init__` reads `dropInstanceID`, `isClaimed`,
`currentMinutesWatched` (default 0) and `requiredMinutesWatched` from the
API payload and, if the drop is already claimed, clamps
`current_minutes` to `required_minutes`.  The back-references to the
campaign and worker are only used for logging and for issuing the claim
request, whose outcome is the oracle `ClaimResult` below.
-/

structure TimedDrop where
  claim_id : Option String
  is_claimed : Bool
  current_minutes : ℕ
  required_minutes : ℕ
deriving DecidableEq, Repr

/-- Constructor `TimedDrop.__init__` on parsed payload fields. -/
def TimedDrop.init (claim_id : Option String) (is_claimed : Bool)
    (current required : ℕ) : TimedDrop :=
  { claim_id := claim_id
    is_claimed := is_claimed
    current_minutes := if is_claimed then required else current
    required_minutes := required }

/-- Property `can_claim`: a claim token exists and the drop is not yet claimed. -/
def TimedDrop.can_claim (d : TimedDrop) : Bool :=
  d.claim_id.isSome && !d.is_claimed

/-- Outcome of the `ClaimDrop` GraphQL request: success, or a `GQLException`
raised by `gql_request` (the server answered with an `errors` list). -/
inductive ClaimResult where
  | success
  | apiError
deriving DecidableEq, Repr

/-- Method `TimedDrop.claim()`: returns the drop state after the call together with
a flag recording whether a claim request was issued.  If `can_claim` is
false the method returns at once; otherwise the request is issued, and on
success the drop is marked claimed with `current_minutes` set to
`required_minutes`, while a `GQLException` is caught and leaves the drop
unchanged. -/
def TimedDrop.claim (d : TimedDrop) (r : ClaimResult) : TimedDrop × Bool :=
  if d.can_claim then
    match r with
    | .success =>
      ({ d with is_claimed := true, current_minutes := d.required_minutes }, true)
    | .apiError => (d, true)
  else (d, false)

/-- A campaign, reduced to the fields `finished` reads: the values of the
`timed_drops` dict in insertion order. -/
structure DropsCampaign where
  timed_drops : List TimedDrop
deriving DecidableEq, Repr

/-- Property `DropsCampaign.finished`: a campaign with no drops is reported
unfinished; otherwise `all(d.is_claimed for d in self.timed_drops.values())`. -/
def DropsCampaign.finished (c : DropsCampaign) : Bool :=
  if c.timed_drops.isEmpty then false
  else c.timed_drops.all (fun d => d.is_claimed)

/-- The drop invariant: once claimed, minutes-watched equals
minutes-required. -/
def TimedDrop.inv (d : TimedDrop) : Prop :=
  d.is_claimed = true → d.current_minutes = d.required_minutes

/-! ## GraphQL operations (`GQLOperation`, core.py lines 49-65)

A `GQLOperation` is a Python dict holding `operationName`, the persisted
query hash under `extensions.persistedQuery.sha256Hash`, and an optional
`variables` dict, embedded as the field `vars` (absent behaves as empty,
since `with_variables` starts from `self.get("variables", {})`).  Python
dicts are embedded as association lists; `dictGet` is `d.get(k)`, and
`dict.update` replaces the value of an existing key in place and appends a
new key. -/

structure GQLOperation (V : Type) where
  operationName : String
  sha256Hash : String
  vars : List (String × V)
deriving DecidableEq, Repr

/-- Python `d.get(k)` on a dict. -/
def dictGet {V : Type} (k : String) : List (String × V) → Option V
  | [] => none
  | p :: m => if p.1 = k then some p.2 else dictGet k m

/-- Python `m[k] = v` on a dict: replace in place when the key is present,
append otherwise. -/
def dictInsert {V : Type} (m : List (String × V)) (k : String) (v : V) :
    List (String × V) :=
  if m.any (fun p => p.1 = k) then
    m.map (fun p => if p.1 = k then (k, v) else p)
  else m ++ [(k, v)]

/-- Python `m.update(extra)`: insert the entries of `extra` in order. -/
def dictUpdate {V : Type} (m extra : List (String × V)) : List (String × V) :=
  extra.foldl (fun acc p => dictInsert acc p.1 p.2) m

/-- Method `with_variables`: copy the base variables, `update` them with the new
ones, and build a fresh operation with the same name and hash (the receiver
is not mutated, which the purely functional embedding makes implicit). -/
def GQLOperation.with_variables {V : Type} (op : GQLOperation V)
    (extra : List (String × V)) : GQLOperation V :=
  { operationName := op.operationName
    sha256Hash := op.sha256Hash
    vars := dictUpdate op.vars extra }

/-! ## Stream updates and the watch loop (core.py lines 209-223 and 646-669)

`Channel.update_stream` issues a `GetStreamInfo` GraphQL request.  Its
outcome is the oracle `GqlResult`: either a well-formed response whose
`data.user.stream` field is present (`ok (some d)`, with `d` the user
payload the `Stream` is built from) or absent/falsy (`ok none`), or a
`GQLException` raised by `gql_request`.  The method returns the new value
of `self._stream` together with its boolean result.

`AccountWorker._watch_loop` is embedded with fuel: the worker state that
the loop reads (`_is_running`, `watching_channel`) does not change from
inside the loop body, so it is passed as a constant; the returned number
counts the `send_watch` calls issued before the fuel ran out, and the final
state reflects the `finally:` block that clears `watching_channel` when it
still points at this channel. -/

inductive GqlResult (α : Type) where
  | ok (data : α)
  | gqlError
deriving DecidableEq, Repr

/-- Method `Channel.update_stream`: on a response with a truthy
`data.user.stream`, store a new `Stream` and return `True`; on a falsy
stream field or a `GQLException`, set `self._stream = None` and return
`False`.  The pair is `(returned bool, new value of self._stream)`. -/
def Channel.update_stream {α : Type} (res : GqlResult (Option α)) : Bool × Option α :=
  match res with
  | .ok (some d) => (true, some d)
  | .ok none => (false, none)
  | .gqlError => (false, none)

/-- The per-worker state read and written by the watch loop. -/
structure WorkerState where
  is_running : Bool
  watching_channel : Option ℕ
deriving DecidableEq, Repr

/-- The `while self._is_running and self.watching_channel == channel:` loop
body of `_watch_loop`, counting `send_watch` calls: each iteration sends one
heartbeat (a failed send is logged and does not stop the loop) and sleeps. -/
def heartbeatSends (st : WorkerState) (ch : ℕ) : ℕ → ℕ
  | 0 => 0
  | fuel + 1 =>
    if st.is_running = true ∧ st.watching_channel = some ch then
      heartbeatSends st ch fuel + 1
    else 0

/-- Coroutine `AccountWorker._watch_loop` for channel `ch`: if the first
`update_stream` check reports offline the loop logs and returns at once;
otherwise it runs the heartbeat loop.  The `finally:` block clears
`watching_channel` if it still points at `ch`.  Returns the number of
heartbeat sends and the worker state after the `finally:` block. -/
def AccountWorker.watch_loop (st : WorkerState) (ch : ℕ) (firstUpdate : Bool)
    (fuel : ℕ) : ℕ × WorkerState :=
  let sends := if firstUpdate = false then 0 else heartbeatSends st ch fuel
  let st' :=
    if st.watching_channel = some ch then { st with watching_channel := none }
    else st
  (sends, st')

/-! ## Telemetry-endpoint discovery from the playlist
(`Channel.get_spade_url`, core.py lines 276-299)

The part of `get_spade_url` that runs on the fetched HLS master playlist
text: first `re.search(r'"spade_?url":\s*"([^"]+)"', text, re.IGNORECASE)`
(with `%`-unescaping of the captured group), then the stream-chunk
fallback on the last line.  Python strings are embedded as `List Char`,
with Python's `str.strip`, `str.split`, `str.replace` and `in` implemented
character by character, and the one concrete regular expression compiled
into an explicit matcher (`_?` is deterministic here because `_` can never
begin a match of `url`). -/

/-- Python's `\s` class (ASCII range): space, tab, newline, carriage
return, vertical tab, form feed. -/
def isPySpace (c : Char) : Bool :=
  c = ' ' || c = '\t' || c = '\n' || c = '\r' || c = Char.ofNat 11 || c = Char.ofNat 12

/-- Python `str.strip()`: drop whitespace from both ends. -/
def pyStrip (s : List Char) : List Char :=
  ((s.dropWhile isPySpace).reverse.dropWhile isPySpace).reverse

/-- Python `str.split(sep)` for a non-empty separator `s0 :: sep`, split at each
leftmost non-overlapping occurrence, with explicit structural fuel (one
unit per character consumed from the front; each recursive call consumes
at least one character, so `fuel = s.length` is always enough).  Always
returns a non-empty list. -/
def pySplitAux (s0 : Char) (sep : List Char) : ℕ → List Char → List (List Char)
  | _, [] => [[]]
  | 0, c :: _ => [[c]]
  | fuel + 1, c :: rest =>
    if (s0 :: sep).isPrefixOf (c :: rest) then
      [] :: pySplitAux s0 sep fuel (rest.drop sep.length)
    else
      match pySplitAux s0 sep fuel rest with
      | [] => [[c]]
      | g :: gs => (c :: g) :: gs

/-- Python `str.split(s0 :: sep)`. -/
def pySplit (s0 : Char) (sep : List Char) (s : List Char) : List (List Char) :=
  pySplitAux s0 sep s.length s

/-- Python `str.replace(p0 :: ps, repl)`: replace each leftmost non-overlapping
occurrence, with the same fuel discipline as `pySplitAux`. -/
def pyReplaceAux (p0 : Char) (ps : List Char) (repl : List Char) :
    ℕ → List Char → List Char
  | _, [] => []
  | 0, c :: _ => [c]
  | fuel + 1, c :: rest =>
    if (p0 :: ps).isPrefixOf (c :: rest) then
      repl ++ pyReplaceAux p0 ps repl fuel (rest.drop ps.length)
    else c :: pyReplaceAux p0 ps repl fuel rest

/-- Python `str.replace(p0 :: ps, repl)`. -/
def pyReplace (p0 : Char) (ps : List Char) (repl : List Char) (s : List Char) :
    List Char :=
  pyReplaceAux p0 ps repl s.length s

/-- Python's `pat in s` substring test. -/
def containsSub (pat : List Char) : List Char → Bool
  | [] => pat.isEmpty
  | c :: rest => pat.isPrefixOf (c :: rest) || containsSub pat rest

/-- Case-insensitive literal match, returning the remainder on success. -/
def matchLitCI : List Char → List Char → Option (List Char)
  | [], s => some s
  | _ :: _, [] => none
  | l :: ls, c :: cs => if c.toLower = l.toLower then matchLitCI ls cs else none

/-- Match `"spade_?url":\s*"([^"]+)"` at the head of `s`, returning the
captured group. -/
def spadeMatchAt (s : List Char) : Option (List Char) := do
  let r1 ← matchLitCI ("\"spade").toList s
  let r2 := match r1 with
    | '_' :: t => t
    | _ => r1
  let r3 ← matchLitCI ("url\":").toList r2
  let r4 := r3.dropWhile isPySpace
  match r4 with
  | '"' :: r5 =>
    let cap := r5.takeWhile (fun c => c ≠ '"')
    match r5.dropWhile (fun c => c ≠ '"') with
    | '"' :: _ => if cap.isEmpty then none else some cap
    | _ => none
  | _ => none

/-- Python `re.search`: try the pattern at every position, leftmost match wins. -/
def spadeSearch : List Char → Option (List Char)
  | [] => none
  | c :: rest =>
    match spadeMatchAt (c :: rest) with
    | some cap => some cap
    | none => spadeSearch rest

/-- The playlist stage of `get_spade_url`: search the playlist text for the
`spade_url` pattern (unescaping `%`); failing that, take
`playlist_text.strip().split('\n')`, and if the last line does not start
with `#` and contains `video-edge-`, answer
`stream_url.split('/index')[0] + "/ping"`.  `none` stands for falling
through to `raise MinerException`. -/
def spadeFromPlaylist (playlist : List Char) : Option (List Char) :=
  match spadeSearch playlist with
  | some cap => some (pyReplace '\\' ("u0025").toList ("%").toList cap)
  | none =>
    match (pySplit '\n' [] (pyStrip playlist)).getLast? with
    | none => none
    | some ln =>
      if ln.head? = some '#' then none
      else if containsSub ("video-edge-").toList ln then
        some ((pySplit '/' ("index").toList ln).headD [] ++ ("/ping").toList)
      else none

/-- Index of the first occurrence of `pat` in `s`, if any. -/
def firstOccIdx? (pat : List Char) : List Char → Option ℕ
  | [] => none
  | c :: rest =>
    if pat.isPrefixOf (c :: rest) then some 0
    else (firstOccIdx? pat rest).map (· + 1)

/-- The spec-side reading of "the URL path up to its first occurrence of
the pattern": everything before the first occurrence (the whole string when
the pattern does not occur). -/
def specTruncFirst (pat s : List Char) : List Char :=
  match firstOccIdx? pat s with
  | some i => s.take i
  | none => s

/-- The claim-side reading of "the URL path up to its last `/index`
segment": all split components but the last, rejoined on `/index`. -/
def specTruncAtLastIndex (s : List Char) : List Char :=
  List.intercalate ("/index").toList ((pySplit '/' ("index").toList s).dropLast)

/-- The claim-side reading of "the last non-comment line of the playlist". -/
def lastNonCommentLine? (s : List Char) : Option (List Char) :=
  ((pySplit '\n' [] (pyStrip s)).filter (fun l => l.head? ≠ some '#')).getLast?

/-! ## Theorems about the request engine -/

/-- Closed form for the delay sequence: the `j`-th yield (0-indexed) from
state `b` is `min (b.base * 2 ^ (b.exp + 1 + j)) b.max`. -/
theorem backoffDelays_eq : ∀ (n : ℕ) (b : ExponentialBackoff),
    backoffDelays b n =
      (List.range n).map (fun j => min (b.base * 2 ^ (b.exp + 1 + j)) b.max)
  | 0, _ => rfl
  | n + 1, b => by
    rw [List.range_succ_eq_map]
    show (min (b.base * 2 ^ (b.exp + 1)) b.max) ::
        backoffDelays { b with exp := b.exp + 1 } n = _
    rw [backoffDelays_eq n]
    simp only [List.map_cons, List.map_map]
    refine congrArg₂ _ (by norm_num) (List.map_congr_left ?_)
    intro j _
    simp only [Function.comp]
    have h2 : b.exp + 1 + 1 + j = b.exp + 1 + (j + 1) := by omega
    rw [h2]

/-- C3: with `base = 1` and `cap = 60`, attempt `k` (for `k ≥ 1`) waits
exactly `min (1 * 2 ^ k) 60` seconds, and the delays for attempts 1..5 are
exactly `[2, 4, 8, 16, 32]`. -/
theorem backoff_delay_formula (k : ℕ) (hk : 1 ≤ k) :
    (backoffDelays (ExponentialBackoff.init 1 60) k)[k - 1]? =
      some (min ((1 : ℚ) * 2 ^ k) 60) ∧
    backoffDelays (ExponentialBackoff.init 1 60) 5 = [2, 4, 8, 16, 32] := by
  constructor
  · rw [backoffDelays_eq]
    rw [List.getElem?_map, List.getElem?_range (by omega)]
    have h1 : 0 + 1 + (k - 1) = k := by omega
    simp [ExponentialBackoff.init, h1]
  · rw [backoffDelays_eq]
    norm_num [ExponentialBackoff.init, List.range_succ, min_def]

/-- Witness for C3 at `k = 3`. -/
theorem backoff_delay_formula_witness :
    (1 ≤ 3 ∧
      (backoffDelays (ExponentialBackoff.init 1 60) 3)[2]? =
        some (min ((1 : ℚ) * 2 ^ 3) 60)) ∧
    backoffDelays (ExponentialBackoff.init 1 60) 5 = [2, 4, 8, 16, 32] :=
  ⟨⟨by decide, (backoff_delay_formula 3 (by decide)).1⟩,
    (backoff_delay_formula 3 (by decide)).2⟩

/-- C1 (divergence witness): if every attempt fails transiently — every
attempt returns HTTP 500, or every attempt raises a network/timeout error —
the retry loop never terminates: after any number `fuel` of iterations it is
still running, and in particular `raise RequestException` is never reached
(the backoff iterator never raises `StopIteration`, so the `for` loop never
falls through to the `raise`). -/
theorem request_transient_never_exhausts (b : ExponentialBackoff) (i fuel : ℕ) :
    requestLoop (fun _ => .response 500) b i fuel = .stillRunning ∧
    requestLoop (fun _ => .netError) b i fuel = .stillRunning := by
  induction fuel generalizing b i with
  | zero => exact ⟨rfl, rfl⟩
  | succ fuel ih =>
    constructor
    · show requestLoop _ { b with exp := b.exp + 1 } (i + 1) fuel = _
      exact (ih _ _).1
    · show requestLoop _ { b with exp := b.exp + 1 } (i + 1) fuel = _
      exact (ih _ _).2

/-- C4: on a single attempt, a status `≥ 500` and a network/timeout error
both sleep for the current backoff delay and retry with the bumped backoff
state; any other status is yielded to the caller immediately on that same
attempt, and at loop level the response is yielded with no further
iteration. -/
theorem request_attempt_semantics (b : ExponentialBackoff) (s : ℕ)
    (att : ℕ → AttemptResult) (i fuel : ℕ) :
    (500 ≤ s → requestStep b (.response s) =
      some (.retry (min (b.base * 2 ^ (b.exp + 1)) b.max) { b with exp := b.exp + 1 })) ∧
    (requestStep b .netError =
      some (.retry (min (b.base * 2 ^ (b.exp + 1)) b.max) { b with exp := b.exp + 1 })) ∧
    (s < 500 → requestStep b (.response s) = some (.yielded s)) ∧
    (s < 500 → att i = .response s → requestLoop att b i (fuel + 1) = .yielded s) := by
  refine ⟨fun h5 => ?_, rfl, fun hlt => ?_, fun hlt hatt => ?_⟩
  · simp [requestStep, ExponentialBackoff.next?, h5]
  · simp [requestStep, ExponentialBackoff.next?, Nat.not_le.mpr hlt]
  · show (match requestStep b (att i) with
      | none => ReqOutcome.raisedRequestException
      | some (.yielded s) => ReqOutcome.yielded s
      | some (.retry _ b') => requestLoop att b' (i + 1) fuel) = ReqOutcome.yielded s
    rw [hatt]
    simp [requestStep, ExponentialBackoff.next?, Nat.not_le.mpr hlt]

/-- Witness for C4: a 503 response and a network error retry with delay 2
seconds; a 404 response is yielded immediately. -/
theorem request_attempt_semantics_witness :
    requestStep (ExponentialBackoff.init 1 60) (.response 503) =
      some (.retry 2 { base := 1, exp := 1, max := 60 }) ∧
    requestStep (ExponentialBackoff.init 1 60) .netError =
      some (.retry 2 { base := 1, exp := 1, max := 60 }) ∧
    requestStep (ExponentialBackoff.init 1 60) (.response 404) = some (.yielded 404) ∧
    requestLoop (fun _ => .response 404) (ExponentialBackoff.init 1 60) 0 1 =
      .yielded 404 := by
  have h := request_attempt_semantics (ExponentialBackoff.init 1 60) 503
    (fun _ => AttemptResult.response 404) 0 0
  have h4 := request_attempt_semantics (ExponentialBackoff.init 1 60) 404
    (fun _ => AttemptResult.response 404) 0 0
  refine ⟨?_, ?_, h4.2.2.1 (by decide), h4.2.2.2 (by decide) rfl⟩
  · rw [h.1 (by decide)]
    norm_num [ExponentialBackoff.init]
  · rw [h.2.1]
    norm_num [ExponentialBackoff.init]

/-! ## Theorems about drops and campaigns -/

/-- C5: for a campaign with at least one drop, `finished` holds iff every
drop is claimed; for a campaign with zero drops, `finished` is false. -/
theorem finished_iff_all_claimed (c : DropsCampaign) :
    (c.timed_drops ≠ [] →
      (c.finished = true ↔ ∀ d ∈ c.timed_drops, d.is_claimed = true)) ∧
    (c.timed_drops = [] → c.finished = false) := by
  constructor
  · intro hne
    rw [DropsCampaign.finished, if_neg (by simpa [List.isEmpty_iff] using hne)]
    simp [List.all_eq_true]
  · intro he
    rw [DropsCampaign.finished, if_pos (by simp [he])]

/-- Witness for C5: a one-drop campaign whose drop is claimed is finished,
and a zero-drop campaign is not. -/
theorem finished_iff_all_claimed_witness :
    DropsCampaign.finished ⟨[⟨none, true, 30, 30⟩]⟩ = true ∧
    DropsCampaign.finished ⟨[]⟩ = false :=
  ⟨((finished_iff_all_claimed ⟨[⟨none, true, 30, 30⟩]⟩).1 (by decide)).2 (by decide),
    (finished_iff_all_claimed ⟨[]⟩).2 rfl⟩

/-- C6: `claim()` is a no-op (no request, state unchanged) when `can_claim`
is false; when the request succeeds it sets `is_claimed` and clamps the
minutes, after which a second call is a no-op; when the request fails with
an API-level error the request was issued but the drop is unchanged. -/
theorem claim_semantics (d : TimedDrop) (r : ClaimResult) :
    (d.can_claim = false → d.claim r = (d, false)) ∧
    (d.can_claim = true →
      (d.claim .success).1 =
        { d with is_claimed := true, current_minutes := d.required_minutes } ∧
      (d.claim .success).2 = true ∧
      ((d.claim .success).1).claim r = ((d.claim .success).1, false) ∧
      d.claim .apiError = (d, true)) := by
  constructor
  · intro hcc
    rw [TimedDrop.claim.eq_def, if_neg (by simp [hcc])]
  · intro hcc
    have hs : d.claim .success =
        ({ d with is_claimed := true, current_minutes := d.required_minutes }, true) := by
      rw [TimedDrop.claim.eq_def, if_pos hcc]
    refine ⟨by rw [hs], by rw [hs], ?_, by rw [TimedDrop.claim.eq_def, if_pos hcc]⟩
    rw [hs]
    rw [TimedDrop.claim.eq_def, if_neg (by simp [TimedDrop.can_claim])]

/-- Witness for C6: a drop with a token and one without, both checked at
concrete states. -/
theorem claim_semantics_witness :
    TimedDrop.claim ⟨none, false, 10, 30⟩ .success = (⟨none, false, 10, 30⟩, false) ∧
    (TimedDrop.claim ⟨some "tok", false, 30, 30⟩ .success).1 =
      ⟨some "tok", true, 30, 30⟩ ∧
    TimedDrop.claim ⟨some "tok", false, 30, 30⟩ .apiError =
      (⟨some "tok", false, 30, 30⟩, true) :=
  ⟨(claim_semantics ⟨none, false, 10, 30⟩ .success).1 (by decide),
    ((claim_semantics ⟨some "tok", false, 30, 30⟩ .success).2 (by decide)).1,
    ((claim_semantics ⟨some "tok", false, 30, 30⟩ .success).2 (by decide)).2.2.2⟩

/-- C7: the invariant is established by `__init__` (a drop parsed as
already claimed has its minutes clamped) and preserved by `claim()` for
every request outcome. -/
theorem inv_established_and_preserved :
    (∀ (cid : Option String) (ic : Bool) (cur req : ℕ),
      (TimedDrop.init cid ic cur req).inv) ∧
    (∀ (d : TimedDrop) (r : ClaimResult), d.inv → ((d.claim r).1).inv) := by
  constructor
  · intro cid ic cur req hcl
    simp only [TimedDrop.init] at hcl ⊢
    rw [if_pos hcl]
  · intro d r hinv
    rw [TimedDrop.claim.eq_def]
    by_cases hcc : d.can_claim = true
    · rw [if_pos hcc]
      cases r
      · intro _; rfl
      · exact hinv
    · rw [if_neg hcc]
      exact hinv

/-- Witness for C7: the invariant instantiated at a drop parsed as claimed
with too few minutes, and at a successful claim. -/
theorem inv_established_and_preserved_witness :
    (TimedDrop.init (some "t") true 3 30).current_minutes =
      (TimedDrop.init (some "t") true 3 30).required_minutes ∧
    ((TimedDrop.claim ⟨some "t", false, 30, 30⟩ .success).1).current_minutes =
      ((TimedDrop.claim ⟨some "t", false, 30, 30⟩ .success).1).required_minutes :=
  ⟨inv_established_and_preserved.1 (some "t") true 3 30 rfl,
    inv_established_and_preserved.2 ⟨some "t", false, 30, 30⟩ .success
      (fun h => by simp at h) rfl⟩

/-! ## Theorems about `with_variables` -/

theorem dictGet_map_replace {V : Type} (k k' : String) (v : V) :
    ∀ m : List (String × V),
      dictGet k' (m.map (fun p => if p.1 = k then (k, v) else p)) =
        if k' = k then (if m.any (fun p => p.1 = k) then some v else none)
        else dictGet k' m
  | [] => by by_cases hk' : k' = k <;> simp [dictGet, hk']
  | p :: m => by
    have ih := dictGet_map_replace k k' v m
    by_cases hp : p.1 = k
    · by_cases hk' : k' = k
      · subst hk'
        simp only [List.map_cons, if_pos hp, List.any_cons, hp]
        simp [dictGet]
      · have h1 : ¬ k = k' := fun hc => hk' hc.symm
        have h2 : ¬ p.1 = k' := fun hc => hk' (by rw [← hc, hp])
        simp only [List.map_cons, if_pos hp, dictGet, if_neg h1, if_neg h2, ih,
          if_neg hk']
    · by_cases hk' : k' = k
      · have h2 : ¬ p.1 = k' := fun hc => hp (by rw [hc, hk'])
        simp only [List.map_cons, if_neg hp]
        simp only [dictGet, if_neg h2]
        rw [ih, if_pos hk', if_pos hk', List.any_cons, decide_eq_false hp,
          Bool.false_or]
      · by_cases hkp : p.1 = k'
        · simp only [List.map_cons, if_neg hp, dictGet, if_pos hkp, if_neg hk']
        · simp only [List.map_cons, if_neg hp, dictGet, if_neg hkp, ih, if_neg hk']

theorem dictGet_append_single {V : Type} (k k' : String) (v : V) :
    ∀ m : List (String × V),
      dictGet k' (m ++ [(k, v)]) =
        (dictGet k' m).or (if k' = k then some v else none)
  | [] => by
    by_cases hk' : k' = k
    · simp [dictGet, hk']
    · have h1 : ¬ k = k' := fun hc => hk' hc.symm
      simp [dictGet, h1, hk']
  | p :: m => by
    by_cases hkp : p.1 = k'
    · simp [dictGet, hkp]
    · simp only [List.cons_append, dictGet, if_neg hkp]
      exact dictGet_append_single k k' v m

theorem dictGet_none_of_not_any {V : Type} (k : String) :
    ∀ m : List (String × V), m.any (fun p => p.1 = k) = false → dictGet k m = none
  | [], _ => rfl
  | p :: m, h => by
    simp only [List.any_cons, Bool.or_eq_false_iff, decide_eq_false_iff_not] at h
    simp only [dictGet, if_neg h.1]
    exact dictGet_none_of_not_any k m h.2

theorem dictGet_dictInsert {V : Type} (m : List (String × V)) (k : String) (v : V)
    (k' : String) :
    dictGet k' (dictInsert m k v) = if k' = k then some v else dictGet k' m := by
  rw [dictInsert]
  by_cases hmem : m.any (fun p => p.1 = k) = true
  · rw [if_pos hmem, dictGet_map_replace, hmem]
    by_cases hk' : k' = k <;> simp [hk']
  · rw [if_neg hmem, dictGet_append_single]
    by_cases hk' : k' = k
    · rw [if_pos hk', if_pos hk']
      have hnone : dictGet k' m = none := by
        apply dictGet_none_of_not_any
        rw [← hk'] at hmem
        exact Bool.not_eq_true _ ▸ (by simpa using hmem)
      rw [hnone]
      rfl
    · rw [if_neg hk', if_neg hk']
      exact Option.or_none

theorem dictGet_dictUpdate {V : Type} (k' : String) :
    ∀ (extra m : List (String × V)), (extra.map Prod.fst).Nodup →
      dictGet k' (dictUpdate m extra) = (dictGet k' extra).or (dictGet k' m)
  | [], m, _ => by simp [dictUpdate, dictGet]
  | (k0, v0) :: extra, m, hnd => by
    simp only [List.map_cons, List.nodup_cons] at hnd
    show dictGet k' (dictUpdate (dictInsert m k0 v0) extra) = _
    rw [dictGet_dictUpdate k' extra (dictInsert m k0 v0) hnd.2, dictGet_dictInsert]
    by_cases hk0 : k' = k0
    · have hany : extra.any (fun p => p.1 = k') = false := by
        rw [List.any_eq_false]
        intro x hx
        simp only [decide_eq_true_eq]
        intro hc
        exact hnd.1 (hk0 ▸ hc ▸ List.mem_map_of_mem Prod.fst hx)
      have hnone : dictGet k' extra = none := dictGet_none_of_not_any k' extra hany
      have hh : k0 = k' := hk0.symm
      simp only [dictGet, hnone, if_pos hk0, if_pos hh]
      rfl
    · have hh : ¬ k0 = k' := fun hc => hk0 hc.symm
      simp only [dictGet, if_neg hk0, if_neg hh]

/-- C8: `with_variables extra` keeps the operation name and persisted-query
hash and produces the base variable dict overlaid by `extra`, the keys of
`extra` winning on conflict; the original operation is untouched (the
embedding is purely functional: `with_variables` builds a new record from a
copy of the base dict, as the source does before updating). -/
theorem with_variables_overlay {V : Type} (op : GQLOperation V)
    (extra : List (String × V)) (k : String)
    (hnd : (extra.map Prod.fst).Nodup) :
    (op.with_variables extra).operationName = op.operationName ∧
    (op.with_variables extra).sha256Hash = op.sha256Hash ∧
    dictGet k (op.with_variables extra).vars =
      (dictGet k extra).or (dictGet k op.vars) :=
  ⟨rfl, rfl, dictGet_dictUpdate k extra op.vars hnd⟩

/-- Witness for C8 on the `ClaimDrop` call shape: base variables
`channel ↦ 10, x ↦ 1`, extra `x ↦ 2, y ↦ 3`; `x` is won by
`extra` and `channel` survives. -/
theorem with_variables_overlay_witness :
    (GQLOperation.with_variables ⟨"ClaimDrop", "a455", [("channel", 10), ("x", 1)]⟩
        [("x", 2), ("y", 3)]).operationName = "ClaimDrop" ∧
    dictGet "x" (GQLOperation.with_variables
        (V := ℕ) ⟨"ClaimDrop", "a455", [("channel", 10), ("x", 1)]⟩
        [("x", 2), ("y", 3)]).vars = some 2 ∧
    dictGet "channel" (GQLOperation.with_variables
        (V := ℕ) ⟨"ClaimDrop", "a455", [("channel", 10), ("x", 1)]⟩
        [("x", 2), ("y", 3)]).vars = some 10 := by
  have h1 := with_variables_overlay (V := ℕ)
    ⟨"ClaimDrop", "a455", [("channel", 10), ("x", 1)]⟩ [("x", 2), ("y", 3)]
    "x" (by decide)
  have h2 := with_variables_overlay (V := ℕ)
    ⟨"ClaimDrop", "a455", [("channel", 10), ("x", 1)]⟩ [("x", 2), ("y", 3)]
    "channel" (by decide)
  exact ⟨h1.1, by rw [h1.2.2]; rfl, by rw [h2.2.2]; rfl⟩

/-! ## Theorems about the watch loop -/

/-- C9: when the first `update_stream` check reports offline, the watch
loop issues zero heartbeat sends no matter how long it could have run, and
it never selects another channel: afterwards `watching_channel` is either
cleared or (when the loop no longer owned it) untouched. -/
theorem watch_loop_offline (st : WorkerState) (ch : ℕ) (fuel : ℕ) :
    (AccountWorker.watch_loop st ch false fuel).1 = 0 ∧
    ((AccountWorker.watch_loop st ch false fuel).2.watching_channel = none ∨
      (AccountWorker.watch_loop st ch false fuel).2.watching_channel =
        st.watching_channel) := by
  refine ⟨rfl, ?_⟩
  rw [AccountWorker.watch_loop]
  by_cases hw : st.watching_channel = some ch
  · exact Or.inl (by simp [hw])
  · exact Or.inr (by simp [hw])

/-- C10: an API-level error in `update_stream` and an offline channel are
indistinguishable at the watch-loop interface: both return `False` with
`self._stream = None`, and both terminate the watch loop with zero
heartbeat sends. -/
theorem update_stream_error_offline_alike (α : Type) (st : WorkerState)
    (ch : ℕ) (fuel : ℕ) :
    Channel.update_stream (GqlResult.gqlError : GqlResult (Option α)) = (false, none) ∧
    Channel.update_stream (GqlResult.ok (none : Option α)) = (false, none) ∧
    (AccountWorker.watch_loop st ch
      (Channel.update_stream (GqlResult.gqlError : GqlResult (Option α))).1 fuel).1 = 0 ∧
    (AccountWorker.watch_loop st ch
      (Channel.update_stream (GqlResult.ok (none : Option α))).1 fuel).1 = 0 :=
  ⟨rfl, rfl, rfl, rfl⟩

/-! ## Theorems about endpoint discovery -/

theorem pySplitAux_ne_nil (p0 : Char) (ps : List Char) :
    ∀ (fuel : ℕ) (s : List Char), pySplitAux p0 ps fuel s ≠ []
  | _, [] => by simp [pySplitAux]
  | 0, c :: rest => by simp [pySplitAux]
  | fuel + 1, c :: rest => by
    rw [pySplitAux]
    by_cases hpre : (p0 :: ps).isPrefixOf (c :: rest) = true
    · rw [if_pos hpre]
      simp
    · rw [if_neg hpre]
      cases pySplitAux p0 ps fuel rest <;> simp

theorem pySplitAux_headD (p0 : Char) (ps : List Char) :
    ∀ (fuel : ℕ) (s : List Char), s.length ≤ fuel →
      (pySplitAux p0 ps fuel s).headD [] = specTruncFirst (p0 :: ps) s := by
  intro fuel
  induction fuel with
  | zero =>
    intro s hs
    have : s = [] := List.length_eq_zero.mp (Nat.le_zero.mp hs)
    subst this
    rfl
  | succ fuel ih =>
    intro s hs
    match s with
    | [] => rfl
    | c :: rest =>
      have hr : rest.length ≤ fuel := by
        simp only [List.length_cons] at hs
        omega
      by_cases hpre : (p0 :: ps).isPrefixOf (c :: rest) = true
      · rw [pySplitAux, if_pos hpre]
        simp [specTruncFirst, firstOccIdx?, hpre]
      · rw [pySplitAux, if_neg hpre]
        obtain ⟨g, gs, hg⟩ :=
          List.exists_cons_of_ne_nil (pySplitAux_ne_nil p0 ps fuel rest)
        rw [hg]
        have hg' : g = specTruncFirst (p0 :: ps) rest := by
          have hh := ih rest hr
          rw [hg] at hh
          simpa using hh
        cases hfo : firstOccIdx? (p0 :: ps) rest with
        | none =>
          simp only [List.headD_cons, specTruncFirst, firstOccIdx?, if_neg hpre, hfo,
            Option.map_none']
          rw [hg', specTruncFirst, hfo]
        | some i =>
          simp only [List.headD_cons, specTruncFirst, firstOccIdx?, if_neg hpre, hfo,
            Option.map_some', List.take_succ_cons]
          rw [hg', specTruncFirst, hfo]

theorem pySplit_headD (p0 : Char) (ps s : List Char) :
    (pySplit p0 ps s).headD [] = specTruncFirst (p0 :: ps) s :=
  pySplitAux_headD p0 ps s.length s (le_refl _)

/-- C2 counterexample.  `playlistA` has no `spade_url` field and its last
(non-comment) line contains `/index` twice: the code truncates at the
first occurrence, not the last.  `playlistB` also has no `spade_url`
field, its last non-comment line is a playable `video-edge-` URL, but its
last line is a comment, so the code derives nothing at all and falls
through to `raise MinerException`. -/
theorem spade_third_fallback_counterexample :
    spadeSearch (("#EXTM3U\nhttps://video-edge-ab.net/hls/index/720/index-dvr.m3u8").toList) = none ∧
    lastNonCommentLine? (("#EXTM3U\nhttps://video-edge-ab.net/hls/index/720/index-dvr.m3u8").toList) =
      some (("https://video-edge-ab.net/hls/index/720/index-dvr.m3u8").toList) ∧
    spadeFromPlaylist (("#EXTM3U\nhttps://video-edge-ab.net/hls/index/720/index-dvr.m3u8").toList) =
      some (("https://video-edge-ab.net/hls/ping").toList) ∧
    specTruncAtLastIndex (("https://video-edge-ab.net/hls/index/720/index-dvr.m3u8").toList) ++
        ("/ping").toList =
      ("https://video-edge-ab.net/hls/index/720/ping").toList ∧
    spadeFromPlaylist (("#EXTM3U\nhttps://video-edge-ab.net/hls/index/720/index-dvr.m3u8").toList) ≠
      some (specTruncAtLastIndex
          (("https://video-edge-ab.net/hls/index/720/index-dvr.m3u8").toList) ++
        ("/ping").toList) ∧
    spadeSearch (("https://video-edge-cd.net/hls/index-dvr.m3u8\n#EXT-X-ENDLIST").toList) = none ∧
    lastNonCommentLine? (("https://video-edge-cd.net/hls/index-dvr.m3u8\n#EXT-X-ENDLIST").toList) =
      some (("https://video-edge-cd.net/hls/index-dvr.m3u8").toList) ∧
    containsSub (("video-edge-").toList)
      (("https://video-edge-cd.net/hls/index-dvr.m3u8").toList) = true ∧
    spadeFromPlaylist (("https://video-edge-cd.net/hls/index-dvr.m3u8\n#EXT-X-ENDLIST").toList) =
      none := by
  refine ⟨by decide, by decide, by decide, by decide, by decide, by decide, by decide,
    by decide, by decide⟩

/-- C2 as amended: for every playlist with no `spade_url` match whose last
line (after stripping) is a non-comment line containing `video-edge-`, the
derived telemetry endpoint is that line truncated before its first
occurrence of `/index`, with `/ping` appended. -/
theorem spade_third_fallback_amended (playlist ln : List Char)
    (h1 : spadeSearch playlist = none)
    (h2 : (pySplit '\n' [] (pyStrip playlist)).getLast? = some ln)
    (h3 : ln.head? ≠ some '#')
    (h4 : containsSub (("video-edge-").toList) ln = true) :
    spadeFromPlaylist playlist =
      some (specTruncFirst (("/index").toList) ln ++ ("/ping").toList) := by
  simp only [spadeFromPlaylist, h1, h2]
  rw [if_neg h3, if_pos h4, pySplit_headD]
  rfl

/-- Witness for the amended C2 on a playlist whose chunk URL contains
`/index` twice. -/
theorem spade_third_fallback_amended_witness :
    spadeFromPlaylist (("#EXTM3U\nhttps://video-edge-ab.net/hls/index/720/index-dvr.m3u8").toList) =
      some (specTruncFirst (("/index").toList)
          (("https://video-edge-ab.net/hls/index/720/index-dvr.m3u8").toList) ++
        ("/ping").toList) :=
  spade_third_fallback_amended
    (("#EXTM3U\nhttps://video-edge-ab.net/hls/index/720/index-dvr.m3u8").toList)
    (("https://video-edge-ab.net/hls/index/720/index-dvr.m3u8").toList)
    (by decide) (by decide) (by decide) (by decide)
